import Mathlib

/-!
Verification of the message-framing core of the IPC library (ipc.cpp).

The embedding models the typed cursor pair `out_message` / `in_message`
from `source/ipc.cpp` and the TCP connect retry loop
`client_socket::connect_proc`.  Byte buffers are lists of naturals
(each entry one byte); the length field at the front of a buffer is
read and written little-endian, matching a uniform host order as the
spec fixes it.  The header `ipc.hpp` is not part of the provided
sources; the small pieces of it that the claims need (the fresh
buffer produced by `clear`, the attach of an `in_message`, the width
of the length type, the tag byte values, and the behaviour of
`check_status` / `fail_status`) are modelled from the spec and marked
as such on their definitions.  Thrown C++ exceptions are modelled as
an error value returned next to the mutated object, since a C++ throw
leaves the member state as mutated so far.
-/

/-- Modelled from the spec: the width in bytes of the length type
`__MSG_LENGTH_TYPE__`, a build switch defined in the missing header
`ipc.hpp`; the spec fixes the default L = 4. -/
def msgLengthSize : Nat := 4

/-- Build configuration of the message layer: whether type tags are
emitted (`__MSG_USE_TAGS__`, spec default: tagged) and the maximum
message size returned by `get_max_size()` from the missing header
(spec: configurable, default 64 KiB). -/
structure msg_config where
  use_tags : Bool
  max_size : Nat
deriving DecidableEq

/-- Little-endian read of a byte list as an unsigned integer. -/
def leRead (bs : List Nat) : Nat := bs.foldr (fun b acc => b + 256 * acc) 0

/-- Little-endian write of the low `w` bytes of `n` (so values are
implicitly truncated modulo 256^w, as the C++ cast to the length type
truncates). -/
def leWrite : Nat → Nat → List Nat
  | 0, _ => []
  | w + 1, n => n % 256 :: leWrite w (n / 256)

/-- Read the length field: the first `msgLengthSize` bytes of a buffer,
as in `*(__MSG_LENGTH_TYPE__*)m_buffer.data()`. -/
def readLenField (buf : List Nat) : Nat := leRead (buf.take msgLengthSize)

/-- Store `n` into the length field of `buf`, truncating to the length
type's width, as in `*(__MSG_LENGTH_TYPE__*)m_buffer.data() = ...`. -/
def writeLenField (buf : List Nat) (n : Nat) : List Nat :=
  leWrite msgLengthSize n ++ buf.drop msgLengthSize

/-- Modelled from the spec: the single-byte type discriminators from the
`type_tag` enum in the missing header; the spec's tag table gives
`str` = 6 and `blob` = 8. -/
def tag_str : Nat := 6

/-- Modelled from the spec: the `blob` discriminator byte. -/
def tag_blob : Nat := 8

/-- The exception kinds thrown by the message layer and socket layer of
ipc.cpp that the claims mention. -/
inductive ipc_error where
  | bad_message
  | message_overflow
  | message_too_short
  | container_overflow
  | type_mismatch
  | active_socket_prepare
deriving DecidableEq

/-- The append cursor `out_message`: a growable byte buffer whose first
`msgLengthSize` bytes are the length field, and the fail flag `m_ok`
(`m_ok = false` means the fail flag is set). -/
structure out_message where
  m_buffer : List Nat
  m_ok : Bool
deriving DecidableEq

/-- Modelled from the spec: `out_message::clear` from the missing header
resets the buffer to a fresh length field of value L (= `msgLengthSize`)
and clears the fail flag. -/
def out_message.clear (_m : out_message) : out_message :=
  { m_buffer := leWrite msgLengthSize msgLengthSize, m_ok := true }

/-- A freshly cleared `out_message` (the state a default-constructed
message holds per the spec's description of `clear`). -/
def out_message.fresh : out_message :=
  { m_buffer := leWrite msgLengthSize msgLengthSize, m_ok := true }

/-- `out_message::operator<<(const std::string_view&)`, ipc.cpp lines
280-306, tagged and untagged branches.  `check_status` and
`fail_status` come from the missing header and are modelled from the
spec: an operation on a cursor whose fail flag is set throws
bad-message and does nothing else, and every raise latches the fail
flag.  On success the code appends the tag byte (tagged mode), the
string bytes, a terminating 0 byte, and then performs
`*(__MSG_LENGTH_TYPE__*)m_buffer.data() += (__MSG_LENGTH_TYPE__)new_used`,
an increment (not a store) of the length field. -/
def out_message.appendString (cfg : msg_config) (m : out_message) (s : List Nat) :
    out_message × Option ipc_error :=
  if m.m_ok = false then (m, some .bad_message)
  else
    let delta : Nat := if cfg.use_tags then 2 else 1
    let len := s.length
    let used := readLenField m.m_buffer
    let new_used := used + len + delta
    if new_used > cfg.max_size then
      ({ m with m_ok := false }, some .message_overflow)
    else
      let buf1 := m.m_buffer ++ (if cfg.use_tags then [tag_str] else []) ++ s ++ [0]
      ({ m with m_buffer := writeLenField buf1 (readLenField buf1 + new_used) }, none)

/-- `out_message::operator<<(const std::pair<const uint8_t*, size_t>&)`,
ipc.cpp lines 308-335.  The blob append pushes the tag byte (tagged
mode), then the blob length as an `msgLengthSize`-byte field, then the
raw bytes; `new_used` counts only `used + len + delta` where `delta`
is 1 (tag) or 0, and the length field is again incremented by
`new_used` rather than set to it. -/
def out_message.appendBlob (cfg : msg_config) (m : out_message) (b : List Nat) :
    out_message × Option ipc_error :=
  if m.m_ok = false then (m, some .bad_message)
  else
    let delta : Nat := if cfg.use_tags then 1 else 0
    let len := b.length
    let used := readLenField m.m_buffer
    let new_used := used + len + delta
    if new_used > cfg.max_size then
      ({ m with m_ok := false }, some .message_overflow)
    else
      let buf1 := m.m_buffer ++ (if cfg.use_tags then [tag_blob] else []) ++
        leWrite msgLengthSize len ++ b
      ({ m with m_buffer := writeLenField buf1 (readLenField buf1 + new_used) }, none)

/-- The extract cursor `in_message`: buffer, read offset and fail flag. -/
structure in_message where
  m_buffer : List Nat
  m_offset : Nat
  m_ok : Bool
deriving DecidableEq

/-- Modelled from the spec: attaching an `in_message` to a complete
buffer sets the read offset just past the length field. -/
def in_message.attach (buf : List Nat) : in_message :=
  { m_buffer := buf, m_offset := msgLengthSize, m_ok := true }

/-- First index of a 0 byte in a list, as `memchr(begin, 0, n)` scans a
window of bytes. -/
def findZero : List Nat → Option Nat
  | [] => none
  | b :: rest => if b = 0 then some 0 else (findZero rest).map (· + 1)

/-- Read one byte of a buffer at an index (`m_buffer[i]`), with the
out-of-range default 0 (the C++ access is in range whenever the size
checks the code performs have passed). -/
def byteAt (l : List Nat) (i : Nat) : Nat := l.getD i 0

/-- `in_message::operator>>(std::string&)`, ipc.cpp lines 337-373.  The
destination string is passed in and its final contents are returned as
the middle component (the C++ code mutates the reference: it is
cleared right after the fail-flag check, before any other check).  The
scan for the terminating 0 runs over `size - m_offset` bytes from the
read offset, where `size` is the declared length read from the length
field; in tagged mode `++m_offset` (line 356) consumes the tag before
the scan, so on a miss the code sets `m_ok = false` and throws
container-overflow with the offset already advanced past the tag.  On
success the offset advances past the 0. -/
def in_message.extractString (cfg : msg_config) (m : in_message) (dest : List Nat) :
    in_message × List Nat × Option ipc_error :=
  if m.m_ok = false then (m, dest, some .bad_message)
  else
    let size := readLenField m.m_buffer
    let delta : Nat := if cfg.use_tags then 2 else 1
    if size < m.m_offset + delta then
      ({ m with m_ok := false }, [], some .message_too_short)
    else if cfg.use_tags ∧ byteAt m.m_buffer m.m_offset ≠ tag_str then
      ({ m with m_ok := false }, [], some .type_mismatch)
    else
      let off := if cfg.use_tags then m.m_offset + 1 else m.m_offset
      let window := (m.m_buffer.drop off).take (size - off)
      match findZero window with
      | none => ({ m with m_offset := off, m_ok := false }, [], some .container_overflow)
      | some z => ({ m with m_offset := off + z + 1 }, window.take z, none)

/-- `in_message::operator>>(std::vector<uint8_t>&)`, ipc.cpp lines
375-410.  After the header check (tag byte plus length field must fit
inside the declared size) and the tag check, the code consumes the tag
and the `msgLengthSize`-byte blob length, advancing `m_offset`; only
then does it check that the blob payload fits, throwing
message-too-short (with the offset left advanced) if not.  A blob of
declared length 0 leaves the destination vector untouched (the
`blob_len != 0` guard skips resize and copy). -/
def in_message.extractBlob (cfg : msg_config) (m : in_message) (dest : List Nat) :
    in_message × List Nat × Option ipc_error :=
  if m.m_ok = false then (m, dest, some .bad_message)
  else
    let size := readLenField m.m_buffer
    let delta : Nat := (if cfg.use_tags then 1 else 0) + msgLengthSize
    if size < m.m_offset + delta then
      ({ m with m_ok := false }, dest, some .message_too_short)
    else if cfg.use_tags ∧ byteAt m.m_buffer m.m_offset ≠ tag_blob then
      ({ m with m_ok := false }, dest, some .type_mismatch)
    else
      let off1 := if cfg.use_tags then m.m_offset + 1 else m.m_offset
      let blob_len := leRead ((m.m_buffer.drop off1).take msgLengthSize)
      let off2 := off1 + msgLengthSize
      if size < off2 + blob_len then
        ({ m with m_offset := off2, m_ok := false }, dest, some .message_too_short)
      else if blob_len ≠ 0 then
        ({ m with m_offset := off2 + blob_len },
          (m.m_buffer.drop off2).take blob_len, none)
      else
        ({ m with m_offset := off2 }, dest, none)

/-- Outcome of one `connect(...)` call inside
`client_socket::connect_proc`: success, or failure with the value
`get_socket_error()` reports. -/
inductive connect_outcome where
  | success
  | failure (err : Nat)
deriving DecidableEq

/-- Linux errno values tested by the retry loop (unix branch). -/
def EAGAIN : Nat := 11

/-- Linux errno value for connection refused. -/
def ECONNREFUSED : Nat := 111

/-- Linux errno value for operation in progress. -/
def EINPROGRESS : Nat := 115

/-- The error test of ipc.cpp line 135: retry only on EAGAIN,
ECONNREFUSED or EINPROGRESS. -/
def retryable_error (e : Nat) : Bool :=
  e = EAGAIN ∨ e = ECONNREFUSED ∨ e = EINPROGRESS

/-- Whether a connect outcome is a failure the loop retries on. -/
def is_retryable_failure : connect_outcome → Bool
  | .success => false
  | .failure e => retryable_error e

/-- `max_attempts_count` of ipc.cpp line 127. -/
def max_attempts_count : Nat := 10

/-- The 1-second sleep of ipc.cpp line 138, counted in seconds. -/
def retrySleepSeconds : Nat := 1

/-- Result of `client_socket::connect_proc`: either connected, or the
active-socket-prepare exception raised; both record how many
`connect` calls were made and how many seconds were spent sleeping. -/
inductive connect_result where
  | connected (attempts sleep_seconds : Nat)
  | prepare_error (attempts sleep_seconds : Nat)
deriving DecidableEq

/-- The retry loop of `client_socket::connect_proc`, ipc.cpp lines
127-145 (unix branch), with `remaining = max_attempts_count - attempt`
counting down: while `attempt < max_attempts_count`, call `connect`;
on success leave the loop; on a retryable error sleep one second and
try again; on any other error raise active-socket-prepare at once;
when the attempts are exhausted raise active-socket-prepare. -/
def connect_loop (outcomes : Nat → connect_outcome) :
    Nat → Nat → Nat → connect_result
  | 0, attempt, sleeps => .prepare_error attempt sleeps
  | remaining + 1, attempt, sleeps =>
    match outcomes attempt with
    | .success => .connected (attempt + 1) sleeps
    | .failure e =>
      if retryable_error e then
        connect_loop outcomes remaining (attempt + 1) (sleeps + retrySleepSeconds)
      else
        .prepare_error (attempt + 1) sleeps

/-- `client_socket::connect_proc` on a given sequence of connect
outcomes (the `attempts` field of the result counts the `connect`
calls made). -/
def connect_proc (outcomes : Nat → connect_outcome) : connect_result :=
  connect_loop outcomes max_attempts_count 0 0

/-! ### Helper lemmas about the byte-level primitives -/

theorem leWrite_length (w n : Nat) : (leWrite w n).length = w := by
  induction w generalizing n with
  | zero => rfl
  | succ w ih => simp [leWrite, ih]

theorem leRead_leWrite4 (n : Nat) (h : n < 4294967296) : leRead (leWrite 4 n) = n := by
  simp [leWrite, leRead]
  omega

theorem readLenField_leWrite4_append (n : Nat) (X : List Nat) (h : n < 4294967296) :
    readLenField (leWrite 4 n ++ X) = n := by
  rw [readLenField, msgLengthSize, List.take_left' (leWrite_length 4 n), leRead_leWrite4 n h]

theorem findZero_eq_none (l : List Nat) (h : ∀ b ∈ l, b ≠ 0) : findZero l = none := by
  induction l with
  | nil => rfl
  | cons b rest ih =>
    have hb : b ≠ 0 := h b (List.mem_cons_self b rest)
    simp [findZero, hb, ih fun x hx => h x (List.mem_cons_of_mem b hx)]

theorem findZero_lt_length (l : List Nat) (z : Nat) (h : findZero l = some z) :
    z < l.length := by
  induction l generalizing z with
  | nil => simp [findZero] at h
  | cons b rest ih =>
    simp only [findZero] at h
    by_cases hb : b = 0
    · rw [if_pos hb] at h
      have hz : z = 0 := by
        cases h
        rfl
      simp [hz]
    · rw [if_neg hb] at h
      rcases hmap : findZero rest with _ | z0
      · rw [hmap] at h
        simp at h
      · rw [hmap] at h
        simp at h
        have hlt := ih z0 hmap
        simp
        omega

theorem findZero_append_zero (s : List Nat) (h : 0 ∉ s) : findZero (s ++ [0]) = some s.length := by
  induction s with
  | nil => rfl
  | cons b rest ih =>
    have hb : b ≠ 0 := by
      intro hb0
      exact h (by simp [hb0])
    have hr : 0 ∉ rest := fun hm => h (List.mem_cons_of_mem b hm)
    simp [findZero, hb, ih hr]

/-! ### Branch characterizations of the cursor operations (tagged mode) -/

theorem extractString_bad (cfg : msg_config) (m : in_message) (dest : List Nat)
    (h : m.m_ok = false) :
    m.extractString cfg dest = (m, dest, some .bad_message) := by
  unfold in_message.extractString
  simp [h]

theorem extractString_too_short (mx : Nat) (m : in_message) (dest : List Nat)
    (h_ok : m.m_ok = true)
    (hsz : readLenField m.m_buffer < m.m_offset + 2) :
    m.extractString (msg_config.mk true mx) dest =
      ({ m with m_ok := false }, [], some .message_too_short) := by
  unfold in_message.extractString
  simp [h_ok, hsz]

theorem extractString_mismatch (mx : Nat) (m : in_message) (dest : List Nat)
    (h_ok : m.m_ok = true)
    (hsz : m.m_offset + 2 ≤ readLenField m.m_buffer)
    (htag : byteAt m.m_buffer m.m_offset ≠ tag_str) :
    m.extractString (msg_config.mk true mx) dest =
      ({ m with m_ok := false }, [], some .type_mismatch) := by
  unfold in_message.extractString
  simp [h_ok, Nat.not_lt.mpr hsz, htag]

theorem extractString_no_zero (mx : Nat) (m : in_message) (dest : List Nat)
    (h_ok : m.m_ok = true)
    (hsz : m.m_offset + 2 ≤ readLenField m.m_buffer)
    (htag : byteAt m.m_buffer m.m_offset = tag_str)
    (hfz : findZero ((m.m_buffer.drop (m.m_offset + 1)).take
      (readLenField m.m_buffer - (m.m_offset + 1))) = none) :
    m.extractString (msg_config.mk true mx) dest =
      ({ m with m_offset := m.m_offset + 1, m_ok := false }, [],
        some .container_overflow) := by
  unfold in_message.extractString
  simp [h_ok, Nat.not_lt.mpr hsz, htag, hfz]

theorem extractString_found (mx : Nat) (m : in_message) (dest : List Nat) (z : Nat)
    (h_ok : m.m_ok = true)
    (hsz : m.m_offset + 2 ≤ readLenField m.m_buffer)
    (htag : byteAt m.m_buffer m.m_offset = tag_str)
    (hfz : findZero ((m.m_buffer.drop (m.m_offset + 1)).take
      (readLenField m.m_buffer - (m.m_offset + 1))) = some z) :
    m.extractString (msg_config.mk true mx) dest =
      ({ m with m_offset := m.m_offset + 1 + z + 1 },
        ((m.m_buffer.drop (m.m_offset + 1)).take
          (readLenField m.m_buffer - (m.m_offset + 1))).take z, none) := by
  unfold in_message.extractString
  simp [h_ok, Nat.not_lt.mpr hsz, htag, hfz]

theorem extractBlob_bad (cfg : msg_config) (m : in_message) (dest : List Nat)
    (h : m.m_ok = false) :
    m.extractBlob cfg dest = (m, dest, some .bad_message) := by
  unfold in_message.extractBlob
  simp [h]

theorem extractBlob_too_short_header (mx : Nat) (m : in_message) (dest : List Nat)
    (h_ok : m.m_ok = true)
    (hsz : readLenField m.m_buffer < m.m_offset + 1 + msgLengthSize) :
    m.extractBlob (msg_config.mk true mx) dest =
      ({ m with m_ok := false }, dest, some .message_too_short) := by
  unfold in_message.extractBlob
  simp only [msgLengthSize] at hsz ⊢
  simp [h_ok]
  omega

theorem extractBlob_mismatch (mx : Nat) (m : in_message) (dest : List Nat)
    (h_ok : m.m_ok = true)
    (hsz : m.m_offset + 1 + msgLengthSize ≤ readLenField m.m_buffer)
    (htag : byteAt m.m_buffer m.m_offset ≠ tag_blob) :
    m.extractBlob (msg_config.mk true mx) dest =
      ({ m with m_ok := false }, dest, some .type_mismatch) := by
  unfold in_message.extractBlob
  simp only [msgLengthSize] at hsz ⊢
  simp [h_ok, htag, Nat.not_lt.mpr hsz]

theorem extractBlob_too_short_payload (mx : Nat) (m : in_message) (dest : List Nat)
    (h_ok : m.m_ok = true)
    (hsz : m.m_offset + 1 + msgLengthSize ≤ readLenField m.m_buffer)
    (htag : byteAt m.m_buffer m.m_offset = tag_blob)
    (hshort : readLenField m.m_buffer < m.m_offset + 1 + msgLengthSize +
      leRead ((m.m_buffer.drop (m.m_offset + 1)).take msgLengthSize)) :
    m.extractBlob (msg_config.mk true mx) dest =
      ({ m with m_offset := m.m_offset + 1 + msgLengthSize, m_ok := false },
        dest, some .message_too_short) := by
  unfold in_message.extractBlob
  simp only [msgLengthSize] at hsz hshort ⊢
  simp [h_ok, htag, Nat.not_lt.mpr hsz, hshort]

theorem extractBlob_success (mx : Nat) (m : in_message) (dest : List Nat)
    (h_ok : m.m_ok = true)
    (hsz : m.m_offset + 1 + msgLengthSize ≤ readLenField m.m_buffer)
    (htag : byteAt m.m_buffer m.m_offset = tag_blob)
    (hfit : m.m_offset + 1 + msgLengthSize +
      leRead ((m.m_buffer.drop (m.m_offset + 1)).take msgLengthSize) ≤
      readLenField m.m_buffer)
    (hnz : leRead ((m.m_buffer.drop (m.m_offset + 1)).take msgLengthSize) ≠ 0) :
    m.extractBlob (msg_config.mk true mx) dest =
      ({ m with m_offset := m.m_offset + 1 + msgLengthSize +
          leRead ((m.m_buffer.drop (m.m_offset + 1)).take msgLengthSize) },
        (m.m_buffer.drop (m.m_offset + 1 + msgLengthSize)).take
          (leRead ((m.m_buffer.drop (m.m_offset + 1)).take msgLengthSize)), none) := by
  unfold in_message.extractBlob
  simp only [msgLengthSize] at hsz hfit hnz ⊢
  simp [h_ok, htag, Nat.not_lt.mpr hsz, Nat.not_lt.mpr hfit, hnz]

theorem extractBlob_success_zero (mx : Nat) (m : in_message) (dest : List Nat)
    (h_ok : m.m_ok = true)
    (hsz : m.m_offset + 1 + msgLengthSize ≤ readLenField m.m_buffer)
    (htag : byteAt m.m_buffer m.m_offset = tag_blob)
    (hzero : leRead ((m.m_buffer.drop (m.m_offset + 1)).take msgLengthSize) = 0) :
    m.extractBlob (msg_config.mk true mx) dest =
      ({ m with m_offset := m.m_offset + 1 + msgLengthSize }, dest, none) := by
  unfold in_message.extractBlob
  simp only [msgLengthSize] at hsz hzero ⊢
  simp [h_ok, htag, Nat.not_lt.mpr hsz, hzero]

theorem appendString_bad (cfg : msg_config) (m : out_message) (s : List Nat)
    (h : m.m_ok = false) :
    m.appendString cfg s = (m, some .bad_message) := by
  unfold out_message.appendString
  simp [h]

theorem appendBlob_bad (cfg : msg_config) (m : out_message) (b : List Nat)
    (h : m.m_ok = false) :
    m.appendBlob cfg b = (m, some .bad_message) := by
  unfold out_message.appendBlob
  simp [h]

theorem appendString_ok (cfg : msg_config) (m : out_message) (s : List Nat)
    (h_ok : m.m_ok = true)
    (hfit : readLenField m.m_buffer + s.length + (if cfg.use_tags then 2 else 1) ≤
      cfg.max_size) :
    m.appendString cfg s =
      ({ m with m_buffer := (writeLenField
          (m.m_buffer ++ (if cfg.use_tags then [tag_str] else []) ++ s ++ [0])
          (readLenField (m.m_buffer ++ (if cfg.use_tags then [tag_str] else []) ++ s ++ [0]) +
            (readLenField m.m_buffer + s.length + (if cfg.use_tags then 2 else 1)))) },
        none) := by
  unfold out_message.appendString
  simp [h_ok, Nat.not_lt.mpr hfit]

theorem byteAt_append (P X : List Nat) (i : Nat) (h : P.length ≤ i) :
    byteAt (P ++ X) i = byteAt X (i - P.length) := by
  simp [byteAt, List.getD, List.getElem?_append_right h]

theorem fresh_appendString_eq (s : List Nat) (hfit : s.length + 6 ≤ 65536) :
    out_message.fresh.appendString (msg_config.mk true 65536) s =
      ({ m_buffer := leWrite msgLengthSize (s.length + 10) ++ tag_str :: (s ++ [0]),
         m_ok := true }, none) := by
  have h4 : readLenField out_message.fresh.m_buffer = 4 := rfl
  have hfit2 : readLenField out_message.fresh.m_buffer + s.length +
      (if (msg_config.mk true 65536).use_tags then 2 else 1) ≤
      (msg_config.mk true 65536).max_size := by
    rw [h4]
    simp
    omega
  rw [appendString_ok (msg_config.mk true 65536) out_message.fresh s rfl hfit2]
  have hv : readLenField (out_message.fresh.m_buffer ++
        (if (msg_config.mk true 65536).use_tags then [tag_str] else []) ++ s ++ [0]) +
      (readLenField out_message.fresh.m_buffer + s.length +
        (if (msg_config.mk true 65536).use_tags then 2 else 1)) = s.length + 10 := by
    have h1 : readLenField (out_message.fresh.m_buffer ++
        (if (msg_config.mk true 65536).use_tags then [tag_str] else []) ++ s ++ [0]) = 4 := rfl
    rw [h1, h4]
    simp
    omega
  rw [hv]
  rfl

theorem extract_of_framed (mx : Nat) (s dest : List Nat) (hz : 0 ∉ s)
    (hlen : s.length + 10 < 4294967296) :
    (in_message.attach (leWrite msgLengthSize (s.length + 10) ++
        tag_str :: (s ++ [0]))).extractString (msg_config.mk true mx) dest =
      (in_message.mk (leWrite msgLengthSize (s.length + 10) ++ tag_str :: (s ++ [0]))
        (s.length + 6) true, s, none) := by
  have hsize : readLenField (leWrite msgLengthSize (s.length + 10) ++
      tag_str :: (s ++ [0])) = s.length + 10 := by
    rw [msgLengthSize]
    exact readLenField_leWrite4_append (s.length + 10) _ hlen
  have hdrop : (leWrite msgLengthSize (s.length + 10) ++
      tag_str :: (s ++ [0])).drop (msgLengthSize + 1) = s ++ [0] := by
    have h : (leWrite msgLengthSize (s.length + 10) ++ tag_str :: (s ++ [0])).drop
        ((leWrite msgLengthSize (s.length + 10)).length + 1) =
        (tag_str :: (s ++ [0])).drop 1 := List.drop_append 1
    rw [leWrite_length] at h
    simpa using h
  have hwin : ((in_message.attach (leWrite msgLengthSize (s.length + 10) ++
      tag_str :: (s ++ [0]))).m_buffer.drop
        ((in_message.attach (leWrite msgLengthSize (s.length + 10) ++
          tag_str :: (s ++ [0]))).m_offset + 1)).take
      (readLenField (in_message.attach (leWrite msgLengthSize (s.length + 10) ++
        tag_str :: (s ++ [0]))).m_buffer -
        ((in_message.attach (leWrite msgLengthSize (s.length + 10) ++
          tag_str :: (s ++ [0]))).m_offset + 1)) = s ++ [0] := by
    show ((leWrite msgLengthSize (s.length + 10) ++
      tag_str :: (s ++ [0])).drop (msgLengthSize + 1)).take
        (readLenField (leWrite msgLengthSize (s.length + 10) ++
          tag_str :: (s ++ [0])) - (msgLengthSize + 1)) = s ++ [0]
    rw [hsize, hdrop]
    refine List.take_of_length_le ?_
    simp [msgLengthSize]
  have hfz : findZero (((in_message.attach (leWrite msgLengthSize (s.length + 10) ++
      tag_str :: (s ++ [0]))).m_buffer.drop
        ((in_message.attach (leWrite msgLengthSize (s.length + 10) ++
          tag_str :: (s ++ [0]))).m_offset + 1)).take
      (readLenField (in_message.attach (leWrite msgLengthSize (s.length + 10) ++
        tag_str :: (s ++ [0]))).m_buffer -
        ((in_message.attach (leWrite msgLengthSize (s.length + 10) ++
          tag_str :: (s ++ [0]))).m_offset + 1))) = some s.length := by
    rw [hwin]
    exact findZero_append_zero s hz
  have htag : byteAt (in_message.attach (leWrite msgLengthSize (s.length + 10) ++
      tag_str :: (s ++ [0]))).m_buffer
      (in_message.attach (leWrite msgLengthSize (s.length + 10) ++
        tag_str :: (s ++ [0]))).m_offset = tag_str := by
    show byteAt (leWrite msgLengthSize (s.length + 10) ++
      tag_str :: (s ++ [0])) msgLengthSize = tag_str
    rw [byteAt_append _ _ _ (by rw [leWrite_length])]
    rw [leWrite_length]
    simp [byteAt]
  have hsz : (in_message.attach (leWrite msgLengthSize (s.length + 10) ++
      tag_str :: (s ++ [0]))).m_offset + 2 ≤
      readLenField (in_message.attach (leWrite msgLengthSize (s.length + 10) ++
        tag_str :: (s ++ [0]))).m_buffer := by
    show msgLengthSize + 2 ≤ readLenField (leWrite msgLengthSize (s.length + 10) ++
      tag_str :: (s ++ [0]))
    rw [hsize, msgLengthSize]
    omega
  rw [extractString_found mx _ dest s.length rfl hsz htag hfz]
  rw [hwin]
  rw [List.take_left s [0]]
  have hoff : (in_message.attach (leWrite msgLengthSize (s.length + 10) ++
      tag_str :: (s ++ [0]))).m_offset + 1 + s.length + 1 = s.length + 6 := by
    show msgLengthSize + 1 + s.length + 1 = s.length + 6
    rw [msgLengthSize]
    omega
  rw [hoff]
  rfl

/-! ### Behaviour of the connect retry loop -/

theorem connect_loop_all_retryable (outcomes : Nat → connect_outcome) (r a s : Nat)
    (h : ∀ i, i < r → is_retryable_failure (outcomes (a + i)) = true) :
    connect_loop outcomes r a s = .prepare_error (a + r) (s + r * retrySleepSeconds) := by
  induction r generalizing a s with
  | zero => simp [connect_loop]
  | succ r ih =>
    have h0 : is_retryable_failure (outcomes a) = true := by
      have hh := h 0 (by omega)
      simpa using hh
    cases ho : outcomes a with
    | success =>
      rw [ho] at h0
      simp [is_retryable_failure] at h0
    | failure e =>
      rw [ho] at h0
      simp only [is_retryable_failure] at h0
      simp only [connect_loop, ho, h0, if_true]
      have hshift : ∀ i, i < r → is_retryable_failure (outcomes (a + 1 + i)) = true := by
        intro i hi
        have he : a + 1 + i = a + (i + 1) := by omega
        rw [he]
        exact h (i + 1) (by omega)
      rw [ih (a + 1) (s + retrySleepSeconds) hshift]
      have e1 : a + 1 + r = a + (r + 1) := by omega
      have e2 : s + retrySleepSeconds + r * retrySleepSeconds =
          s + (r + 1) * retrySleepSeconds := by
        rw [retrySleepSeconds]
        omega
      rw [e1, e2]

theorem connect_loop_skip (outcomes : Nat → connect_outcome) (k r a s : Nat) (hk : k ≤ r)
    (h : ∀ i, i < k → is_retryable_failure (outcomes (a + i)) = true) :
    connect_loop outcomes r a s =
      connect_loop outcomes (r - k) (a + k) (s + k * retrySleepSeconds) := by
  induction k generalizing r a s with
  | zero => simp
  | succ k ih =>
    obtain ⟨r', rfl⟩ : ∃ r', r = r' + 1 := ⟨r - 1, by omega⟩
    have h0 : is_retryable_failure (outcomes a) = true := by
      have hh := h 0 (by omega)
      simpa using hh
    cases ho : outcomes a with
    | success =>
      rw [ho] at h0
      simp [is_retryable_failure] at h0
    | failure e =>
      rw [ho] at h0
      simp only [is_retryable_failure] at h0
      simp only [connect_loop, ho, h0, if_true]
      have hshift : ∀ i, i < k → is_retryable_failure (outcomes (a + 1 + i)) = true := by
        intro i hi
        have he : a + 1 + i = a + (i + 1) := by omega
        rw [he]
        exact h (i + 1) (by omega)
      rw [ih r' (a + 1) (s + retrySleepSeconds) (by omega) hshift]
      have e1 : r' - k = r' + 1 - (k + 1) := by omega
      have e2 : a + 1 + k = a + (k + 1) := by omega
      have e3 : s + retrySleepSeconds + k * retrySleepSeconds =
          s + (k + 1) * retrySleepSeconds := by
        rw [retrySleepSeconds]
        omega
      rw [e1, e2, e3]

/-! ### Offset discipline of the extract operations -/

theorem extractString_offset_mono (mx : Nat) (m : in_message) (dest : List Nat) :
    m.m_offset ≤ (m.extractString (msg_config.mk true mx) dest).1.m_offset := by
  by_cases h1 : m.m_ok = false
  · rw [extractString_bad _ _ _ h1]
  · have h_ok : m.m_ok = true := by
      revert h1
      cases m.m_ok <;> simp
    by_cases h2 : readLenField m.m_buffer < m.m_offset + 2
    · rw [extractString_too_short mx m dest h_ok h2]
    · by_cases h3 : byteAt m.m_buffer m.m_offset = tag_str
      · rcases hm : findZero ((m.m_buffer.drop (m.m_offset + 1)).take
          (readLenField m.m_buffer - (m.m_offset + 1))) with _ | z
        · rw [extractString_no_zero mx m dest h_ok (Nat.not_lt.mp h2) h3 hm]
          show m.m_offset ≤ m.m_offset + 1
          omega
        · rw [extractString_found mx m dest z h_ok (Nat.not_lt.mp h2) h3 hm]
          show m.m_offset ≤ m.m_offset + 1 + z + 1
          omega
      · rw [extractString_mismatch mx m dest h_ok (Nat.not_lt.mp h2) h3]

theorem extractBlob_offset_mono (mx : Nat) (m : in_message) (dest : List Nat) :
    m.m_offset ≤ (m.extractBlob (msg_config.mk true mx) dest).1.m_offset := by
  by_cases h1 : m.m_ok = false
  · rw [extractBlob_bad _ _ _ h1]
  · have h_ok : m.m_ok = true := by
      revert h1
      cases m.m_ok <;> simp
    by_cases h2 : readLenField m.m_buffer < m.m_offset + 1 + msgLengthSize
    · rw [extractBlob_too_short_header mx m dest h_ok h2]
    · by_cases h3 : byteAt m.m_buffer m.m_offset = tag_blob
      · by_cases h4 : readLenField m.m_buffer < m.m_offset + 1 + msgLengthSize +
          leRead ((m.m_buffer.drop (m.m_offset + 1)).take msgLengthSize)
        · rw [extractBlob_too_short_payload mx m dest h_ok (Nat.not_lt.mp h2) h3 h4]
          show m.m_offset ≤ m.m_offset + 1 + msgLengthSize
          omega
        · by_cases h5 : leRead ((m.m_buffer.drop (m.m_offset + 1)).take msgLengthSize) = 0
          · rw [extractBlob_success_zero mx m dest h_ok (Nat.not_lt.mp h2) h3 h5]
            show m.m_offset ≤ m.m_offset + 1 + msgLengthSize
            omega
          · rw [extractBlob_success mx m dest h_ok (Nat.not_lt.mp h2) h3 (Nat.not_lt.mp h4) h5]
            show m.m_offset ≤ m.m_offset + 1 + msgLengthSize +
              leRead ((m.m_buffer.drop (m.m_offset + 1)).take msgLengthSize)
            omega
      · rw [extractBlob_mismatch mx m dest h_ok (Nat.not_lt.mp h2) h3]

theorem extractString_none_bound (mx : Nat) (m : in_message) (dest : List Nat)
    (h : (m.extractString (msg_config.mk true mx) dest).2.2 = none) :
    (m.extractString (msg_config.mk true mx) dest).1.m_offset ≤ readLenField m.m_buffer := by
  by_cases h1 : m.m_ok = false
  · rw [extractString_bad _ _ _ h1] at h
    simp at h
  · have h_ok : m.m_ok = true := by
      revert h1
      cases m.m_ok <;> simp
    by_cases h2 : readLenField m.m_buffer < m.m_offset + 2
    · rw [extractString_too_short mx m dest h_ok h2] at h
      simp at h
    · by_cases h3 : byteAt m.m_buffer m.m_offset = tag_str
      · rcases hm : findZero ((m.m_buffer.drop (m.m_offset + 1)).take
          (readLenField m.m_buffer - (m.m_offset + 1))) with _ | z
        · rw [extractString_no_zero mx m dest h_ok (Nat.not_lt.mp h2) h3 hm] at h
          simp at h
        · rw [extractString_found mx m dest z h_ok (Nat.not_lt.mp h2) h3 hm]
          have hz := findZero_lt_length _ _ hm
          rw [List.length_take] at hz
          show m.m_offset + 1 + z + 1 ≤ readLenField m.m_buffer
          omega
      · rw [extractString_mismatch mx m dest h_ok (Nat.not_lt.mp h2) h3] at h
        simp at h

theorem extractBlob_none_bound (mx : Nat) (m : in_message) (dest : List Nat)
    (h : (m.extractBlob (msg_config.mk true mx) dest).2.2 = none) :
    (m.extractBlob (msg_config.mk true mx) dest).1.m_offset ≤ readLenField m.m_buffer := by
  by_cases h1 : m.m_ok = false
  · rw [extractBlob_bad _ _ _ h1] at h
    simp at h
  · have h_ok : m.m_ok = true := by
      revert h1
      cases m.m_ok <;> simp
    by_cases h2 : readLenField m.m_buffer < m.m_offset + 1 + msgLengthSize
    · rw [extractBlob_too_short_header mx m dest h_ok h2] at h
      simp at h
    · by_cases h3 : byteAt m.m_buffer m.m_offset = tag_blob
      · by_cases h4 : readLenField m.m_buffer < m.m_offset + 1 + msgLengthSize +
          leRead ((m.m_buffer.drop (m.m_offset + 1)).take msgLengthSize)
        · rw [extractBlob_too_short_payload mx m dest h_ok (Nat.not_lt.mp h2) h3 h4] at h
          simp at h
        · by_cases h5 : leRead ((m.m_buffer.drop (m.m_offset + 1)).take msgLengthSize) = 0
          · rw [extractBlob_success_zero mx m dest h_ok (Nat.not_lt.mp h2) h3 h5]
            show m.m_offset + 1 + msgLengthSize ≤ readLenField m.m_buffer
            omega
          · rw [extractBlob_success mx m dest h_ok (Nat.not_lt.mp h2) h3 (Nat.not_lt.mp h4) h5]
            show m.m_offset + 1 + msgLengthSize +
              leRead ((m.m_buffer.drop (m.m_offset + 1)).take msgLengthSize) ≤
              readLenField m.m_buffer
            omega
      · rw [extractBlob_mismatch mx m dest h_ok (Nat.not_lt.mp h2) h3] at h
        simp at h

/-! ### The claims -/

/-- C1: the length-field invariant fails on the code.  Appending the
one-byte string `[97]` to a fresh tagged message succeeds and leaves a
7-byte buffer, but the first `msgLengthSize` bytes read back 11, not 7:
line 302 of ipc.cpp increments the length field by `new_used` instead
of storing `new_used`, so the field holds `used + new_used`. -/
theorem C1_length_field_not_buffer_size :
    (out_message.fresh.appendString (msg_config.mk true 65536) [97]).2 = none ∧
    (out_message.fresh.appendString (msg_config.mk true 65536) [97]).1.m_buffer =
      [11, 0, 0, 0, 6, 97, 0] ∧
    readLenField
      (out_message.fresh.appendString (msg_config.mk true 65536) [97]).1.m_buffer = 11 ∧
    ((out_message.fresh.appendString (msg_config.mk true 65536) [97]).1.m_buffer).length
      = 7 := by
  decide

/-- C2 counterexample: on a message whose declared blob length (50)
exceeds the declared message length (12), the blob extraction throws
message-too-short (ipc.cpp line 400 calls
`throw_message_too_short_exception`), not container-overflow as the
claim states. -/
theorem C2_counterexample_kind_is_too_short :
    ((in_message.mk [12, 0, 0, 0, 8, 50, 0, 0, 0, 1, 2] 4 true).extractBlob
      (msg_config.mk true 65536) [9, 9]).2.2 = some ipc_error.message_too_short ∧
    ipc_error.message_too_short ≠ ipc_error.container_overflow := by
  decide

/-- C2 (amended): blob extraction reads the `msgLengthSize`-byte length
field and then exactly that many raw bytes; if the declared blob
length would exceed the declared message length it throws
message-too-short (not container-overflow) and latches the fail
flag. -/
theorem C2_blob_length_is_checked (mx : Nat) (m : in_message) (dest : List Nat)
    (h_ok : m.m_ok = true)
    (hhdr : m.m_offset + 1 + msgLengthSize ≤ readLenField m.m_buffer)
    (htag : byteAt m.m_buffer m.m_offset = tag_blob)
    (hwf : readLenField m.m_buffer ≤ m.m_buffer.length) :
    (readLenField m.m_buffer < m.m_offset + 1 + msgLengthSize +
        leRead ((m.m_buffer.drop (m.m_offset + 1)).take msgLengthSize) →
      m.extractBlob (msg_config.mk true mx) dest =
        ({ m with m_offset := m.m_offset + 1 + msgLengthSize, m_ok := false },
          dest, some .message_too_short)) ∧
    (leRead ((m.m_buffer.drop (m.m_offset + 1)).take msgLengthSize) ≠ 0 →
      m.m_offset + 1 + msgLengthSize +
          leRead ((m.m_buffer.drop (m.m_offset + 1)).take msgLengthSize) ≤
        readLenField m.m_buffer →
      m.extractBlob (msg_config.mk true mx) dest =
        ({ m with m_offset := m.m_offset + 1 + msgLengthSize +
            leRead ((m.m_buffer.drop (m.m_offset + 1)).take msgLengthSize) },
          (m.m_buffer.drop (m.m_offset + 1 + msgLengthSize)).take
            (leRead ((m.m_buffer.drop (m.m_offset + 1)).take msgLengthSize)), none) ∧
      ((m.m_buffer.drop (m.m_offset + 1 + msgLengthSize)).take
          (leRead ((m.m_buffer.drop (m.m_offset + 1)).take msgLengthSize))).length =
        leRead ((m.m_buffer.drop (m.m_offset + 1)).take msgLengthSize)) := by
  constructor
  · intro hshort
    exact extractBlob_too_short_payload mx m dest h_ok hhdr htag hshort
  · intro hnz hfit
    refine ⟨extractBlob_success mx m dest h_ok hhdr htag hfit hnz, ?_⟩
    rw [List.length_take, List.length_drop]
    omega

/-- C2 witness: a concrete blob of declared length 3 is read back as
exactly its 3 raw bytes. -/
theorem C2_blob_length_is_checked_witness :
    (in_message.mk [12, 0, 0, 0, 8, 3, 0, 0, 0, 1, 2, 3] 4 true).extractBlob
      (msg_config.mk true 65536) [9, 9] =
      (in_message.mk [12, 0, 0, 0, 8, 3, 0, 0, 0, 1, 2, 3] 12 true, [1, 2, 3], none) := by
  have h := (C2_blob_length_is_checked 65536
    (in_message.mk [12, 0, 0, 0, 8, 3, 0, 0, 0, 1, 2, 3] 4 true) [9, 9]
    rfl (by decide) (by decide) (by decide)).2 (by decide) (by decide)
  exact h.1

/-- C3 counterexample: the round trip is not the identity for every
string.  The three-byte string `[97, 0, 98]` (an embedded 0 byte) is
appended successfully, but extraction stops at the first 0 and yields
`[97]`. -/
theorem C3_counterexample_embedded_zero :
    (out_message.fresh.appendString (msg_config.mk true 65536) [97, 0, 98]).2 = none ∧
    ((in_message.attach ((out_message.fresh.appendString (msg_config.mk true 65536)
      [97, 0, 98]).1.m_buffer)).extractString (msg_config.mk true 65536) []).2.1 = [97] ∧
    ([97] : List Nat) ≠ [97, 0, 98] := by
  decide

/-- C3 (amended): for every string with no embedded 0 byte whose append
fits, append-then-extract yields exactly the string; the emitted byte
sequence ends in a trailing 0 added by the framer (the buffer is
`lengthfield ++ tag :: (s ++ [0])`) which is not part of the extracted
value. -/
theorem C3_string_round_trip (s dest : List Nat) (hz : 0 ∉ s)
    (hfit : s.length + 6 ≤ 65536) :
    (out_message.fresh.appendString (msg_config.mk true 65536) s).2 = none ∧
    (out_message.fresh.appendString (msg_config.mk true 65536) s).1.m_buffer =
      leWrite msgLengthSize (s.length + 10) ++ tag_str :: (s ++ [0]) ∧
    (in_message.attach ((out_message.fresh.appendString (msg_config.mk true 65536)
        s).1.m_buffer)).extractString (msg_config.mk true 65536) dest =
      (in_message.mk (leWrite msgLengthSize (s.length + 10) ++ tag_str :: (s ++ [0]))
        (s.length + 6) true, s, none) := by
  have ha := fresh_appendString_eq s hfit
  refine ⟨by rw [ha], by rw [ha], ?_⟩
  rw [ha]
  exact extract_of_framed 65536 s dest hz (by omega)

/-- C3 witness: the two-byte string `[104, 105]` round-trips. -/
theorem C3_string_round_trip_witness :
    (in_message.attach ((out_message.fresh.appendString (msg_config.mk true 65536)
        [104, 105]).1.m_buffer)).extractString (msg_config.mk true 65536) [7] =
      (in_message.mk [12, 0, 0, 0, 6, 104, 105, 0] 8 true, [104, 105], none) := by
  have h := (C3_string_round_trip [104, 105] [7] (by decide) (by decide)).2.2
  exact h

/-- C4: the blob overflow check undercounts.  With `max_size = 16`, a
fresh tagged message accepts an 11-byte blob because `new_used` counts
`used + len + 1 = 16`, omitting the `msgLengthSize` bytes of the
emitted blob length field; the resulting buffer holds 20 bytes, past
the maximum, and no message-overflow is thrown. -/
theorem C4_blob_overflow_check_undercounts :
    (out_message.fresh.appendBlob (msg_config.mk true 16) (List.replicate 11 7)).2 =
      none ∧
    ((out_message.fresh.appendBlob (msg_config.mk true 16)
      (List.replicate 11 7)).1.m_buffer).length = 20 ∧
    (msg_config.mk true 16).max_size < 20 := by
  decide

/-- C5: once the fail flag is set, every modelled operation on that
cursor returns bad-message and leaves the cursor (and the destination)
unchanged; only `out_message::clear` resets the flag. -/
theorem C5_fail_flag_latched (cfg : msg_config) (m : out_message) (mi : in_message)
    (s b d1 d2 : List Nat) (ho : m.m_ok = false) (hi : mi.m_ok = false) :
    m.appendString cfg s = (m, some .bad_message) ∧
    m.appendBlob cfg b = (m, some .bad_message) ∧
    mi.extractString cfg d1 = (mi, d1, some .bad_message) ∧
    mi.extractBlob cfg d2 = (mi, d2, some .bad_message) ∧
    (out_message.clear m).m_ok = true :=
  ⟨appendString_bad cfg m s ho, appendBlob_bad cfg m b ho,
    extractString_bad cfg mi d1 hi, extractBlob_bad cfg mi d2 hi, rfl⟩

/-- C5 witness: a concrete failed out-cursor and in-cursor both report
bad-message and stay put. -/
theorem C5_fail_flag_latched_witness :
    (out_message.mk [4, 0, 0, 0] false).appendString (msg_config.mk true 65536) [1] =
      (out_message.mk [4, 0, 0, 0] false, some ipc_error.bad_message) ∧
    (in_message.mk [9, 0, 0, 0] 4 false).extractBlob (msg_config.mk true 65536) [5] =
      (in_message.mk [9, 0, 0, 0] 4 false, [5], some ipc_error.bad_message) := by
  have h := C5_fail_flag_latched (msg_config.mk true 65536)
    (out_message.mk [4, 0, 0, 0] false) (in_message.mk [9, 0, 0, 0] 4 false)
    [1] [] [] [5] rfl rfl
  exact ⟨h.1, h.2.2.2.1⟩

/-- C6: when the next element is a string but no 0 byte occurs between
the read offset and the declared message length, string extraction
throws container-overflow and latches the fail flag (the tag byte has
been consumed by then, so the thrown state's offset is one past the
old offset). -/
theorem C6_no_terminator_container_overflow (mx : Nat) (m : in_message) (dest : List Nat)
    (h_ok : m.m_ok = true)
    (hsz : m.m_offset + 2 ≤ readLenField m.m_buffer)
    (htag : byteAt m.m_buffer m.m_offset = tag_str)
    (hz : ∀ b ∈ (m.m_buffer.drop (m.m_offset + 1)).take
      (readLenField m.m_buffer - (m.m_offset + 1)), b ≠ 0) :
    m.extractString (msg_config.mk true mx) dest =
      ({ m with m_offset := m.m_offset + 1, m_ok := false }, [],
        some .container_overflow) :=
  extractString_no_zero mx m dest h_ok hsz htag (findZero_eq_none _ hz)

/-- C6 witness: a string region `[65, 66]` with no terminating zero. -/
theorem C6_no_terminator_container_overflow_witness :
    (in_message.mk [7, 0, 0, 0, 6, 65, 66] 4 true).extractString
      (msg_config.mk true 65536) [3] =
      (in_message.mk [7, 0, 0, 0, 6, 65, 66] 5 false, [],
        some ipc_error.container_overflow) := by
  have h := C6_no_terminator_container_overflow 65536
    (in_message.mk [7, 0, 0, 0, 6, 65, 66] 4 true) [3] rfl (by decide) (by decide)
    (by decide)
  exact h

/-- C7: in tagged mode, an extraction whose next tag byte differs from
the requested type's tag throws type-mismatch, latches the fail flag
and does not consume the tag: the read offset of the resulting cursor
equals the old offset. -/
theorem C7_tag_mismatch_keeps_offset (mx : Nat) (m : in_message) (d1 d2 : List Nat)
    (h_ok : m.m_ok = true) :
    (m.m_offset + 2 ≤ readLenField m.m_buffer →
      byteAt m.m_buffer m.m_offset ≠ tag_str →
      m.extractString (msg_config.mk true mx) d1 =
        ({ m with m_ok := false }, [], some .type_mismatch)) ∧
    (m.m_offset + 1 + msgLengthSize ≤ readLenField m.m_buffer →
      byteAt m.m_buffer m.m_offset ≠ tag_blob →
      m.extractBlob (msg_config.mk true mx) d2 =
        ({ m with m_ok := false }, d2, some .type_mismatch)) ∧
    ({ m with m_ok := false } : in_message).m_offset = m.m_offset :=
  ⟨fun hsz ht => extractString_mismatch mx m d1 h_ok hsz ht,
    fun hsz ht => extractBlob_mismatch mx m d2 h_ok hsz ht, rfl⟩

/-- C7 witness: a tag byte 0 (the `u32` tag) rejects both the string and
the blob extraction at offset 4, leaving the offset at 4. -/
theorem C7_tag_mismatch_keeps_offset_witness :
    (in_message.mk [9, 0, 0, 0, 0, 1, 2, 3, 4] 4 true).extractString
      (msg_config.mk true 65536) [] =
      (in_message.mk [9, 0, 0, 0, 0, 1, 2, 3, 4] 4 false, [],
        some ipc_error.type_mismatch) ∧
    (in_message.mk [9, 0, 0, 0, 0, 1, 2, 3, 4] 4 true).extractBlob
      (msg_config.mk true 65536) [7] =
      (in_message.mk [9, 0, 0, 0, 0, 1, 2, 3, 4] 4 false, [7],
        some ipc_error.type_mismatch) := by
  have h := C7_tag_mismatch_keeps_offset 65536
    (in_message.mk [9, 0, 0, 0, 0, 1, 2, 3, 4] 4 true) [] [7] rfl
  exact ⟨h.1 (by decide) (by decide), h.2.1 (by decide) (by decide)⟩

/-- C8 counterexample: a blob extraction that needs more payload bytes
than remain throws message-too-short but does not leave the offset
unchanged: the tag and the length field have already been consumed, so
the offset moves from 4 to 9. -/
theorem C8_counterexample_offset_moves :
    (in_message.mk [12, 0, 0, 0, 8, 50, 0, 0, 0, 1, 2] 4 true).extractBlob
      (msg_config.mk true 65536) [9, 9] =
      (in_message.mk [12, 0, 0, 0, 8, 50, 0, 0, 0, 1, 2] 9 false, [9, 9],
        some ipc_error.message_too_short) ∧
    (9 : Nat) ≠ 4 := by
  decide

/-- C8 (amended): the read offset never decreases, after a successful
extraction it is at most the declared message length, and a too-short
extraction throws message-too-short; the initial header checks leave
the offset unchanged, but the blob payload check runs after the tag
and length field are consumed, leaving the offset advanced by
`1 + msgLengthSize`. -/
theorem C8_offset_discipline (mx : Nat) (m : in_message) (d1 d2 : List Nat) :
    m.m_offset ≤ (m.extractString (msg_config.mk true mx) d1).1.m_offset ∧
    m.m_offset ≤ (m.extractBlob (msg_config.mk true mx) d2).1.m_offset ∧
    ((m.extractString (msg_config.mk true mx) d1).2.2 = none →
      (m.extractString (msg_config.mk true mx) d1).1.m_offset ≤
        readLenField m.m_buffer) ∧
    ((m.extractBlob (msg_config.mk true mx) d2).2.2 = none →
      (m.extractBlob (msg_config.mk true mx) d2).1.m_offset ≤
        readLenField m.m_buffer) ∧
    (m.m_ok = true → readLenField m.m_buffer < m.m_offset + 2 →
      m.extractString (msg_config.mk true mx) d1 =
        ({ m with m_ok := false }, [], some .message_too_short)) ∧
    (m.m_ok = true → readLenField m.m_buffer < m.m_offset + 1 + msgLengthSize →
      m.extractBlob (msg_config.mk true mx) d2 =
        ({ m with m_ok := false }, d2, some .message_too_short)) ∧
    (m.m_ok = true → m.m_offset + 1 + msgLengthSize ≤ readLenField m.m_buffer →
      byteAt m.m_buffer m.m_offset = tag_blob →
      readLenField m.m_buffer < m.m_offset + 1 + msgLengthSize +
        leRead ((m.m_buffer.drop (m.m_offset + 1)).take msgLengthSize) →
      m.extractBlob (msg_config.mk true mx) d2 =
        ({ m with m_offset := m.m_offset + 1 + msgLengthSize, m_ok := false },
          d2, some .message_too_short)) :=
  ⟨extractString_offset_mono mx m d1,
    extractBlob_offset_mono mx m d2,
    extractString_none_bound mx m d1,
    extractBlob_none_bound mx m d2,
    fun h_ok hsz => extractString_too_short mx m d1 h_ok hsz,
    fun h_ok hsz => extractBlob_too_short_header mx m d2 h_ok hsz,
    fun h_ok hsz htag hshort =>
      extractBlob_too_short_payload mx m d2 h_ok hsz htag hshort⟩

/-- C8 witness: a declared size of 5 is too short for a string header at
offset 4; the throw is message-too-short and the offset stays at 4. -/
theorem C8_offset_discipline_witness :
    (in_message.mk [5, 0, 0, 0, 0] 4 true).extractString (msg_config.mk true 65536)
      [1, 2] =
      (in_message.mk [5, 0, 0, 0, 0] 4 false, [], some ipc_error.message_too_short) := by
  have h := C8_offset_discipline 65536 (in_message.mk [5, 0, 0, 0, 0] 4 true) [1, 2] []
  exact h.2.2.2.2.1 rfl (by decide)

/-- C9: the connect retry loop makes at most `max_attempts_count`
connect calls; it retries (after a one-second sleep) exactly on
EAGAIN / ECONNREFUSED / EINPROGRESS, raises active-socket-prepare at
once on any other error, and raises active-socket-prepare after
`max_attempts_count` retryable failures. -/
theorem C9_connect_retry_policy (outcomes : Nat → connect_outcome) :
    (∀ k, k < max_attempts_count →
      (∀ i, i < k → is_retryable_failure (outcomes i) = true) →
      (outcomes k = .success →
        connect_proc outcomes = .connected (k + 1) (k * retrySleepSeconds)) ∧
      (∀ e, outcomes k = .failure e → retryable_error e = false →
        connect_proc outcomes = .prepare_error (k + 1) (k * retrySleepSeconds))) ∧
    ((∀ i, i < max_attempts_count → is_retryable_failure (outcomes i) = true) →
      connect_proc outcomes =
        .prepare_error max_attempts_count (max_attempts_count * retrySleepSeconds)) := by
  constructor
  · intro k hk hpre
    have hskip := connect_loop_skip outcomes k max_attempts_count 0 0 (by omega)
      (by intro i hi; simpa using hpre i hi)
    obtain ⟨r', hr⟩ : ∃ r', max_attempts_count - k = r' + 1 :=
      ⟨max_attempts_count - k - 1, by omega⟩
    constructor
    · intro hs
      rw [connect_proc, hskip, hr]
      simp only [connect_loop, hs, Nat.zero_add]
    · intro e he hne
      rw [connect_proc, hskip, hr]
      simp only [connect_loop, he, Nat.zero_add]
      simp [hne]
  · intro hall
    rw [connect_proc]
    have h := connect_loop_all_retryable outcomes max_attempts_count 0 0
      (by intro i hi; simpa using hall i hi)
    rw [h]
    simp

/-- C9 witness: three connection-refused failures followed by a success
connect on the fourth call after three seconds of sleeping. -/
theorem C9_connect_retry_policy_witness :
    connect_proc (fun i => if i < 3 then .failure ECONNREFUSED else .success) =
      .connected 4 3 := by
  have h := ((C9_connect_retry_policy
    (fun i => if i < 3 then .failure ECONNREFUSED else .success)).1 3 (by decide)
    (by decide)).1 (by decide)
  simpa [retrySleepSeconds] using h

/-- C10: a blob of declared length 0 is extracted successfully, the
offset advances past the tag and the length field only, and the
destination vector keeps its prior contents (the `blob_len != 0` guard
skips resize and copy); string extraction, by contrast, produces a
value independent of the destination's prior contents because it
clears the destination first. -/
theorem C10_zero_blob_keeps_dest (mx : Nat) (m : in_message) (dest : List Nat)
    (h_ok : m.m_ok = true)
    (hsz : m.m_offset + 1 + msgLengthSize ≤ readLenField m.m_buffer)
    (htag : byteAt m.m_buffer m.m_offset = tag_blob)
    (hzero : leRead ((m.m_buffer.drop (m.m_offset + 1)).take msgLengthSize) = 0) :
    m.extractBlob (msg_config.mk true mx) dest =
      ({ m with m_offset := m.m_offset + 1 + msgLengthSize }, dest, none) ∧
    ∀ d : List Nat, (m.extractString (msg_config.mk true mx) d).2.1 =
      (m.extractString (msg_config.mk true mx) []).2.1 := by
  refine ⟨extractBlob_success_zero mx m dest h_ok hsz htag hzero, ?_⟩
  intro d
  unfold in_message.extractString
  simp [h_ok]

/-- C10 witness: a zero-length blob leaves the destination `[42, 43]`
untouched and moves the offset from 4 to 9. -/
theorem C10_zero_blob_keeps_dest_witness :
    (in_message.mk [9, 0, 0, 0, 8, 0, 0, 0, 0] 4 true).extractBlob
      (msg_config.mk true 65536) [42, 43] =
      (in_message.mk [9, 0, 0, 0, 8, 0, 0, 0, 0] 9 true, [42, 43], none) := by
  have h := (C10_zero_blob_keeps_dest 65536
    (in_message.mk [9, 0, 0, 0, 8, 0, 0, 0, 0] 4 true) [42, 43] rfl (by decide)
    (by decide) (by decide)).1
  exact h
